import Mathlib

/-!
Verification of the team-map backend (src/backend/server.py) against its
natural-language specification.

The embedding below is shallow: the MongoDB document store is a record of
lists of documents, each REST / Socket.IO handler becomes a pure function
from the store (plus its request arguments and the fresh identifier and
timestamp the handler would generate) to a trace of effects — durable
writes and live broadcasts — together with its return value, raising
`HTTPException` is modelled with `Except`, and `float` coordinates are
modelled as exact rationals.
-/

namespace TeamMap

/-- GeoJSON point, `server.py` class `GeoPoint`: `coordinates` is
`[longitude, latitude]`. -/
structure GeoPoint where
  type : String
  coordinates : List ℚ
  deriving DecidableEq

/-- Document model of `server.py` class `Pin`. -/
structure Pin where
  id : String
  room_id : String
  title : String
  description : String
  location : GeoPoint
  created_by : String
  created_at : ℕ
  votes : ℤ
  voted_by : List String
  deriving DecidableEq

/-- Request model of `server.py` class `PinCreate`. -/
structure PinCreate where
  room_id : String
  title : String
  description : String
  latitude : ℚ
  longitude : ℚ
  created_by : String
  deriving DecidableEq

/-- Document model of `server.py` class `Room`. -/
structure Room where
  id : String
  name : String
  description : String
  created_by : String
  created_at : ℕ
  members : List String
  is_active : Bool
  deriving DecidableEq

/-- Request model of `server.py` class `RoomCreate`. -/
structure RoomCreate where
  name : String
  description : String
  created_by : String
  deriving DecidableEq

/-- Document model of `server.py` class `User`. -/
structure User where
  id : String
  name : String
  email : String
  avatar : String
  current_room : Option String
  deriving DecidableEq

/-- The MongoDB database `db`: its three collections `rooms`, `pins`,
`users`, each a list of documents in insertion order. -/
structure DB where
  rooms : List Room
  pins : List Pin
  users : List User
  deriving DecidableEq

/-- Payload of a Socket.IO event arriving from a client (`data` in the
handlers): its optional `room_id` entry, read by `data.get('room_id')`,
plus the remaining entries, which the handlers never inspect. -/
structure EventData where
  room_id : Option String
  rest : List (String × String)
  deriving DecidableEq

/-- Payload of an outbound `sio.emit` call. -/
inductive BPayload where
  /-- A pin document (`pin.dict()` or a document read back from `db.pins`). -/
  | pinDoc : Pin → BPayload
  /-- A client payload forwarded verbatim by a relay handler. -/
  | clientData : EventData → BPayload
  /-- The pin list sent by the `join_room` Socket.IO handler. -/
  | pinsList : List Pin → BPayload
  /-- A `user_name` / `message` notice (`user_joined`, `user_left`). -/
  | notice : String → String → BPayload
  deriving DecidableEq

/-- One `sio.emit(event, payload, room=room)` call; `room = none` models
`room=None` (the payload had no `room_id`). -/
structure Broadcast where
  event : String
  payload : BPayload
  room : Option String
  deriving DecidableEq

/-- A single MongoDB `update_one` patch on a pin, as used by `vote_pin`:
both branches pair a `voted_by` set-edit with a `votes` increment. -/
inductive PinUpdate where
  /-- The patch `pull voted_by user, inc votes -1`. -/
  | pullVote : String → PinUpdate
  /-- The patch `push voted_by user, inc votes +1`. -/
  | pushVote : String → PinUpdate
  deriving DecidableEq

/-- One effect a handler performs, in program order: a durable write to a
collection or a live broadcast. -/
inductive Effect where
  | insertRoom : Room → Effect
  | insertPin : Pin → Effect
  | insertUser : User → Effect
  /-- The `update_one({id: pinId}, patch)` call of `vote_pin`. -/
  | updatePin : String → PinUpdate → Effect
  /-- The `update_one({id: roomId}, {push: {members: user}})` call of
  `join_room_api`. -/
  | pushMember : String → String → Effect
  | emit : Broadcast → Effect
  deriving DecidableEq

/-- Error raised by a handler: `HTTPException(status_code, detail)`, or an
uncaught Python exception (never actually reached, see
`vote_pin_no_internalError`). -/
inductive ApiError where
  | httpError : ℕ → String → ApiError
  | internalError : ApiError
  deriving DecidableEq

/-- MongoDB `update_one` semantics: apply `f` to the first element
matching `p`, leave everything else unchanged. -/
def updateFirst (p : α → Bool) (f : α → α) : List α → List α
  | [] => []
  | x :: xs => if p x then f x :: xs else x :: updateFirst p f xs

/-- The result of applying one `vote_pin` patch to a pin document:
MongoDB `pull` removes every occurrence, `push` appends, `inc` adds. -/
def applyPinUpdate (u : PinUpdate) (p : Pin) : Pin :=
  match u with
  | .pullVote uid =>
      { p with voted_by := p.voted_by.filter (fun v => v != uid),
               votes := p.votes - 1 }
  | .pushVote uid =>
      { p with voted_by := p.voted_by ++ [uid],
               votes := p.votes + 1 }

/-- Apply one effect to the store; broadcasts do not touch the store. -/
def applyEffect (st : DB) : Effect → DB
  | .insertRoom r => { st with rooms := st.rooms ++ [r] }
  | .insertPin p => { st with pins := st.pins ++ [p] }
  | .insertUser u => { st with users := st.users ++ [u] }
  | .updatePin pid u =>
      { st with pins := updateFirst (fun p => p.id == pid) (applyPinUpdate u) st.pins }
  | .pushMember rid uid =>
      { st with rooms := (updateFirst (fun r => r.id == rid)
          (fun r => { r with members := r.members ++ [uid] }) st.rooms) }
  | .emit _ => st

/-- Run a trace of effects left to right. -/
def runEffects (st : DB) : List Effect → DB
  | [] => st
  | e :: es => runEffects (applyEffect st e) es

/-- The broadcasts of a trace, in emission order. -/
def broadcastsOf : List Effect → List Broadcast
  | [] => []
  | .emit b :: es => b :: broadcastsOf es
  | _ :: es => broadcastsOf es

/-- MongoDB `find_one({id: x})` on a collection keyed by `id`. -/
def findRoom (st : DB) (rid : String) : Option Room :=
  st.rooms.find? (fun r => r.id == rid)

/-- MongoDB `find_one({id: x})` on the pins collection. -/
def findPin (st : DB) (pid : String) : Option Pin :=
  st.pins.find? (fun p => p.id == pid)

/-- `GeoStore.find_pins_in_room`: `db.pins.find({room_id: roomId})`. -/
def find_pins_in_room (st : DB) (rid : String) : List Pin :=
  st.pins.filter (fun p => p.room_id == rid)

/-! REST handlers. Each takes the current store, the request arguments,
and — where the handler draws fresh values — the generated UUID and
timestamp, and returns the effect trace it performs together with its
return value (or an error, in which case nothing was performed before the
raise). -/

/-- Handler `create_room` (`POST /api/rooms`). -/
def create_room (rd : RoomCreate) (freshId : String) (ts : ℕ) :
    List Effect × Room :=
  let room : Room :=
    { id := freshId, name := rd.name, description := rd.description,
      created_by := rd.created_by, created_at := ts,
      members := [rd.created_by], is_active := true }
  ([.insertRoom room], room)

/-- Handler `join_room_api` (`POST /api/rooms/\x7broom_id\x7d/join`). -/
def join_room_api (st : DB) (room_id user_id : String) :
    Except ApiError (List Effect × String) :=
  match findRoom st room_id with
  | none => .error (.httpError 404 "Room not found")
  | some room =>
      if room.members.contains user_id then
        .ok ([], "Successfully joined room")
      else
        .ok ([.pushMember room_id user_id], "Successfully joined room")

/-- Handler `create_pin` (`POST /api/pins`). -/
def create_pin (pd : PinCreate) (freshId : String) (ts : ℕ) :
    List Effect × Pin :=
  let pin : Pin :=
    { id := freshId, room_id := pd.room_id, title := pd.title,
      description := pd.description,
      location := { type := "Point",
                    coordinates := [pd.longitude, pd.latitude] },
      created_by := pd.created_by, created_at := ts,
      votes := 0, voted_by := [] }
  ([.insertPin pin, .emit ⟨"pin_added", .pinDoc pin, some pin.room_id⟩], pin)

/-- Return value of `vote_pin`. -/
structure VoteResult where
  message : String
  votes : ℤ
  deriving DecidableEq

/-- Handler `vote_pin` (`POST /api/pins/\x7bpin_id\x7d/vote`): 404 when no
pin matches; otherwise either pull the vote or push it, re-read the
updated document, emit `pin_modified` with it to the pin's room, and
report the action and new count. The unreachable `internalError` branch
models `updated_pin` reading back as `None`. -/
def vote_pin (st : DB) (pin_id user_id : String) :
    Except ApiError (List Effect × VoteResult) :=
  match findPin st pin_id with
  | none => .error (.httpError 404 "Pin not found")
  | some pin =>
      let upd : PinUpdate :=
        if pin.voted_by.contains user_id then .pullVote user_id
        else .pushVote user_id
      let action : String :=
        if pin.voted_by.contains user_id then "removed" else "added"
      match findPin (applyEffect st (.updatePin pin_id upd)) pin_id with
      | none => .error .internalError
      | some updated =>
          .ok ([.updatePin pin_id upd,
                .emit ⟨"pin_modified", .pinDoc updated, some pin.room_id⟩],
               { message := "Vote " ++ action, votes := updated.votes })

/-- Centroid record returned by `GeoStore.calculate_centroid`. -/
structure Centroid where
  longitude : ℚ
  latitude : ℚ
  type : String
  deriving DecidableEq

/-- `GeoStore.calculate_centroid`: the aggregation pipeline matching
`room_id` and averaging coordinate 0 and coordinate 1; `none` when the
room has no pins. -/
def calculate_centroid (st : DB) (rid : String) : Option Centroid :=
  let ps := find_pins_in_room st rid
  if ps.length > 0 then
    let avgLng : ℚ :=
      (ps.map (fun p => (p.location.coordinates[0]?).getD 0)).sum / ps.length
    let avgLat : ℚ :=
      (ps.map (fun p => (p.location.coordinates[1]?).getD 0)).sum / ps.length
    some { longitude := avgLng, latitude := avgLat, type := "centroid" }
  else none

/-- Return value of `get_optimal_location`. -/
structure OptimalLocation where
  optimal_location : Centroid
  algorithm : String
  description : String
  deriving DecidableEq

/-- Handler `get_optimal_location`
(`GET /api/rooms/\x7broom_id\x7d/optimal-location`): a pure read. -/
def get_optimal_location (st : DB) (room_id : String) :
    Except ApiError (List Effect × OptimalLocation) :=
  match calculate_centroid st room_id with
  | none => .error (.httpError 404 "No pins found in room")
  | some c =>
      .ok ([], { optimal_location := c, algorithm := "centroid",
                 description := "Geographic center of all pins" })

/-! Socket.IO relay handlers. Each only emits; none reads or writes the
store. The target room is `data.get('room_id')`. -/

/-- Socket.IO handler `pin_created`: relay the payload as `pin_added`. -/
def pin_created (data : EventData) : List Effect :=
  [.emit ⟨"pin_added", .clientData data, data.room_id⟩]

/-- Socket.IO handler `pin_updated`: relay the payload as `pin_modified`. -/
def pin_updated (data : EventData) : List Effect :=
  [.emit ⟨"pin_modified", .clientData data, data.room_id⟩]

/-- Socket.IO handler `pin_deleted`: relay the payload as `pin_removed`. -/
def pin_deleted (data : EventData) : List Effect :=
  [.emit ⟨"pin_removed", .clientData data, data.room_id⟩]

/-- Run a state-to-state step of `vote_pin`: apply its effect trace when
the call succeeds, leave the store untouched when it raises. -/
def vote_pin_state (st : DB) (pin_id user_id : String) : DB :=
  match vote_pin st pin_id user_id with
  | .ok (effs, _) => runEffects st effs
  | .error _ => st

/-- Run a state-to-state step of `create_pin`. -/
def create_pin_state (st : DB) (pd : PinCreate) (freshId : String) (ts : ℕ) : DB :=
  runEffects st (create_pin pd freshId ts).1

/-- Whether an API call succeeded (HTTP 200). -/
def okb (e : Except ApiError α) : Bool :=
  match e with
  | .ok _ => true
  | .error _ => false

/-- The longitudes (coordinate 0) of the pins of a room, in store order. -/
def roomLongitudes (st : DB) (rid : String) : List ℚ :=
  (find_pins_in_room st rid).map (fun p => (p.location.coordinates[0]?).getD 0)

/-- The latitudes (coordinate 1) of the pins of a room, in store order. -/
def roomLatitudes (st : DB) (rid : String) : List ℚ :=
  (find_pins_in_room st rid).map (fun p => (p.location.coordinates[1]?).getD 0)

/-- Per-pin invariant of the spec: the vote count equals the number of
voters, and no user identifier occurs twice in `voted_by`. -/
def PinInv (p : Pin) : Prop :=
  p.votes = (p.voted_by.length : ℤ) ∧ p.voted_by.Nodup

/-- Store-wide invariant: every pin document satisfies `PinInv`. -/
def DBInv (st : DB) : Prop :=
  ∀ p ∈ st.pins, PinInv p

/-- One mutation step of the system considered by the invariant claim: a
`create_pin` call or a `vote_pin` call (with any arguments, by any user). -/
inductive OpStep : DB → DB → Prop
  | createPin (st : DB) (pd : PinCreate) (fid : String) (ts : ℕ) :
      OpStep st (create_pin_state st pd fid ts)
  | votePin (st : DB) (pid uid : String) :
      OpStep st (vote_pin_state st pid uid)

/-- Any number of `create_pin` / `vote_pin` operations in sequence. -/
def Reaches : DB → DB → Prop :=
  Relation.ReflTransGen OpStep

/-! Concrete sample data, used to instantiate the theorems below. The two
pin locations are the pair from the spec's centroid example. -/

/-- The empty store. -/
def emptyDB : DB := ⟨[], [], []⟩

/-- A pin at longitude -74.0060, latitude 40.7128 in room `r1`. -/
def pinA : Pin :=
  { id := "pa", room_id := "r1", title := "A", description := "",
    location := { type := "Point", coordinates := [-74.0060, 40.7128] },
    created_by := "u1", created_at := 0, votes := 0, voted_by := [] }

/-- A pin at longitude -73.9851, latitude 40.7589 in room `r1`. -/
def pinB : Pin :=
  { id := "pb", room_id := "r1", title := "B", description := "",
    location := { type := "Point", coordinates := [-73.9851, 40.7589] },
    created_by := "u2", created_at := 0, votes := 0, voted_by := [] }

/-- A store holding the two spec-example pins. -/
def sampleDB : DB := ⟨[], [pinA, pinB], []⟩

/-- A pin already voted for by `u1`. -/
def pinV : Pin :=
  { id := "pv", room_id := "r1", title := "V", description := "",
    location := { type := "Point", coordinates := [0, 0] },
    created_by := "u1", created_at := 0, votes := 1, voted_by := ["u1"] }

/-- A store holding `pinV`. -/
def dbV : DB := ⟨[], [pinV], []⟩

/-- A room created by `u1`, whose members list is `[u1]`. -/
def roomR : Room :=
  { id := "r1", name := "R", description := "", created_by := "u1",
    created_at := 0, members := ["u1"], is_active := true }

/-- A store holding `roomR`. -/
def dbR : DB := ⟨[roomR], [], []⟩

/-- A sample pin-creation request. -/
def pdA : PinCreate :=
  ⟨"r1", "t", "", 40.7128, -74.0060, "u1"⟩

/-! Helper lemmas about `updateFirst` and the vote patches. -/

theorem updateFirst_cons (p : α → Bool) (f : α → α) (x : α) (xs : List α) :
    updateFirst p f (x :: xs) =
      if p x then f x :: xs else x :: updateFirst p f xs := rfl

theorem updateFirst_of_find?_eq_none (p : α → Bool) (f : α → α) (l : List α)
    (h : l.find? p = none) : updateFirst p f l = l := by
  induction l with
  | nil => rfl
  | cons x xs ih =>
      by_cases hx : p x
      · rw [List.find?_cons_of_pos _ hx] at h
        exact absurd h (by simp)
      · rw [List.find?_cons_of_neg _ (by simpa using hx)] at h
        rw [updateFirst_cons, if_neg hx, ih h]

theorem updateFirst_congr (p : α → Bool) (f g : α → α) (l : List α) (a : α)
    (h : l.find? p = some a) (hfg : f a = g a) :
    updateFirst p f l = updateFirst p g l := by
  induction l with
  | nil => exact absurd h (by simp)
  | cons x xs ih =>
      by_cases hx : p x
      · rw [List.find?_cons_of_pos _ hx] at h
        have hxa : x = a := by
          injection h
        rw [updateFirst_cons, updateFirst_cons, if_pos hx, if_pos hx, hxa, hfg]
      · rw [List.find?_cons_of_neg _ (by simpa using hx)] at h
        rw [updateFirst_cons, updateFirst_cons, if_neg hx, if_neg hx, ih h]

theorem updateFirst_eq_self (p : α → Bool) (f : α → α) (l : List α) (a : α)
    (h : l.find? p = some a) (hfa : f a = a) : updateFirst p f l = l := by
  induction l with
  | nil => exact absurd h (by simp)
  | cons x xs ih =>
      by_cases hx : p x
      · rw [List.find?_cons_of_pos _ hx] at h
        have hxa : x = a := by
          injection h
        rw [updateFirst_cons, if_pos hx, hxa, hfa]
      · rw [List.find?_cons_of_neg _ (by simpa using hx)] at h
        rw [updateFirst_cons, if_neg hx, ih h]

theorem find?_updateFirst (p : α → Bool) (f : α → α) (l : List α)
    (hp : ∀ x, p (f x) = p x) :
    (updateFirst p f l).find? p = (l.find? p).map f := by
  induction l with
  | nil => rfl
  | cons x xs ih =>
      by_cases hx : p x
      · have hfx : p (f x) = true := (hp x).trans hx
        rw [updateFirst_cons, if_pos hx, List.find?_cons_of_pos _ hfx,
          List.find?_cons_of_pos _ hx]
        rfl
      · have hx' : ¬ p x = true := hx
        rw [updateFirst_cons, if_neg hx, List.find?_cons_of_neg _ (by simpa using hx),
          List.find?_cons_of_neg _ (by simpa using hx), ih]

theorem mem_updateFirst (p : α → Bool) (f : α → α) (l : List α) (a x : α)
    (h : l.find? p = some a) (hx : x ∈ updateFirst p f l) : x ∈ l ∨ x = f a := by
  induction l with
  | nil => exact absurd h (by simp)
  | cons y ys ih =>
      by_cases hy : p y
      · rw [List.find?_cons_of_pos _ hy] at h
        have hya : y = a := by
          injection h
        rw [updateFirst_cons, if_pos hy] at hx
        rcases List.mem_cons.mp hx with h1 | h1
        · exact Or.inr (by rw [h1, hya])
        · exact Or.inl (List.mem_cons_of_mem _ h1)
      · rw [List.find?_cons_of_neg _ (by simpa using hy)] at h
        rw [updateFirst_cons, if_neg hy] at hx
        rcases List.mem_cons.mp hx with h1 | h1
        · exact Or.inl (by rw [h1]; exact List.mem_cons_self y ys)
        · rcases ih h h1 with h2 | h2
          · exact Or.inl (List.mem_cons_of_mem _ h2)
          · exact Or.inr h2

theorem applyPinUpdate_id (u : PinUpdate) (p : Pin) :
    (applyPinUpdate u p).id = p.id := by
  cases u <;> rfl

theorem applyPinUpdate_room_id (u : PinUpdate) (p : Pin) :
    (applyPinUpdate u p).room_id = p.room_id := by
  cases u <;> rfl

theorem findPin_updatePin (st : DB) (pid : String) (u : PinUpdate) :
    findPin (applyEffect st (.updatePin pid u)) pid =
      (findPin st pid).map (applyPinUpdate u) := by
  have hp : ∀ x : Pin, ((applyPinUpdate u x).id == pid) = (x.id == pid) := by
    intro x
    rw [applyPinUpdate_id]
  exact find?_updateFirst (fun p => p.id == pid) (applyPinUpdate u) st.pins hp

theorem filter_bne_of_not_mem (l : List String) (a : String) (h : a ∉ l) :
    l.filter (fun v => v != a) = l := by
  induction l with
  | nil => rfl
  | cons x xs ih =>
      have hxa : x ≠ a := fun hx => h (hx ▸ List.mem_cons_self x xs)
      have hx : (x != a) = true := bne_iff_ne.mpr hxa
      rw [List.filter_cons, ih (fun hm => h (List.mem_cons_of_mem _ hm))]
      simp [hx]

theorem mem_filter_bne (l : List String) (a u : String) :
    u ∈ l.filter (fun v => v != a) ↔ u ∈ l ∧ u ≠ a := by
  simp [List.mem_filter, bne_iff_ne]

theorem length_filter_bne_of_nodup (l : List String) (a : String)
    (hnd : l.Nodup) (ha : a ∈ l) :
    (l.filter (fun v => v != a)).length = l.length - 1 := by
  induction l with
  | nil => simp at ha
  | cons x xs ih =>
      rcases List.mem_cons.mp ha with hxa | hxa
      · have hxx : (x != a) = false := by
          rw [← hxa]
          simp
        have hnx : a ∉ xs := by
          intro hm
          rw [hxa] at hm
          exact (List.nodup_cons.mp hnd).1 hm
        rw [List.filter_cons, filter_bne_of_not_mem xs a hnx]
        simp [hxx]
      · have hxa' : x ≠ a := fun hx => (List.nodup_cons.mp hnd).1 (hx ▸ hxa)
        have hx : (x != a) = true := bne_iff_ne.mpr hxa'
        have hlen : 1 ≤ xs.length := List.length_pos.mpr (List.ne_nil_of_mem hxa)
        rw [List.filter_cons, if_pos hx, List.length_cons,
          ih (List.nodup_cons.mp hnd).2 hxa, List.length_cons]
        omega

/-! Unfolding lemmas for `vote_pin`: the two branches of the toggle. -/

theorem vote_pin_eq_pull (st : DB) (pid uid : String) (pin : Pin)
    (h : findPin st pid = some pin) (hc : pin.voted_by.contains uid = true) :
    vote_pin st pid uid = .ok
      ([.updatePin pid (.pullVote uid),
        .emit ⟨"pin_modified", .pinDoc (applyPinUpdate (.pullVote uid) pin),
          some pin.room_id⟩],
       { message := "Vote removed", votes := pin.votes - 1 }) := by
  have hre : findPin (applyEffect st (.updatePin pid (.pullVote uid))) pid
      = some (applyPinUpdate (.pullVote uid) pin) := by
    rw [findPin_updatePin, h]
    rfl
  have hm : uid ∈ pin.voted_by := by
    simpa using hc
  simp [vote_pin, h, hm, hre, applyPinUpdate]

theorem vote_pin_eq_push (st : DB) (pid uid : String) (pin : Pin)
    (h : findPin st pid = some pin) (hc : pin.voted_by.contains uid = false) :
    vote_pin st pid uid = .ok
      ([.updatePin pid (.pushVote uid),
        .emit ⟨"pin_modified", .pinDoc (applyPinUpdate (.pushVote uid) pin),
          some pin.room_id⟩],
       { message := "Vote added", votes := pin.votes + 1 }) := by
  have hre : findPin (applyEffect st (.updatePin pid (.pushVote uid))) pid
      = some (applyPinUpdate (.pushVote uid) pin) := by
    rw [findPin_updatePin, h]
    rfl
  have hm : uid ∉ pin.voted_by := by
    simpa using hc
  simp [vote_pin, h, hm, hre, applyPinUpdate]

theorem vote_pin_state_pull (st : DB) (pid uid : String) (pin : Pin)
    (h : findPin st pid = some pin) (hc : pin.voted_by.contains uid = true) :
    vote_pin_state st pid uid =
      { st with pins := (updateFirst (fun p => p.id == pid)
          (applyPinUpdate (.pullVote uid)) st.pins) } := by
  simp only [vote_pin_state, vote_pin_eq_pull st pid uid pin h hc]
  rfl

theorem vote_pin_state_push (st : DB) (pid uid : String) (pin : Pin)
    (h : findPin st pid = some pin) (hc : pin.voted_by.contains uid = false) :
    vote_pin_state st pid uid =
      { st with pins := (updateFirst (fun p => p.id == pid)
          (applyPinUpdate (.pushVote uid)) st.pins) } := by
  simp only [vote_pin_state, vote_pin_eq_push st pid uid pin h hc]
  rfl

theorem vote_pin_state_of_none (st : DB) (pid uid : String)
    (h : findPin st pid = none) : vote_pin_state st pid uid = st := by
  simp only [vote_pin_state, vote_pin, h]

/-! Invariant preservation. -/

theorem DBInv_create (st : DB) (pd : PinCreate) (fid : String) (ts : ℕ)
    (h0 : DBInv st) : DBInv (create_pin_state st pd fid ts) := by
  intro p hp
  have he : create_pin_state st pd fid ts =
      { st with pins := st.pins ++ [(create_pin pd fid ts).2] } := rfl
  rw [he] at hp
  rcases List.mem_append.mp hp with hmem | hmem
  · exact h0 p hmem
  · have hp' : p = (create_pin pd fid ts).2 := by
      simpa using hmem
    rw [hp']
    constructor
    · simp [create_pin]
    · simp [create_pin]

theorem DBInv_vote (st : DB) (pid uid : String) (h0 : DBInv st) :
    DBInv (vote_pin_state st pid uid) := by
  cases hfind : findPin st pid with
  | none =>
      rw [vote_pin_state_of_none st pid uid hfind]
      exact h0
  | some pin =>
      have hfind' : st.pins.find? (fun q => q.id == pid) = some pin := hfind
      obtain ⟨hv, hnd⟩ := h0 pin (List.mem_of_find?_eq_some hfind')
      cases hc : pin.voted_by.contains uid with
      | true =>
          rw [vote_pin_state_pull st pid uid pin hfind hc]
          intro p hp
          rcases mem_updateFirst _ _ _ pin p hfind' hp with hmem | hmem
          · exact h0 p hmem
          · rw [hmem]
            have hm : uid ∈ pin.voted_by := by
              simpa using hc
            have hlen : 1 ≤ pin.voted_by.length :=
              List.length_pos.mpr (List.ne_nil_of_mem hm)
            constructor
            · show pin.votes - 1 =
                ((pin.voted_by.filter (fun v => v != uid)).length : ℤ)
              rw [length_filter_bne_of_nodup pin.voted_by uid hnd hm]
              omega
            · exact hnd.filter _
      | false =>
          rw [vote_pin_state_push st pid uid pin hfind hc]
          intro p hp
          rcases mem_updateFirst _ _ _ pin p hfind' hp with hmem | hmem
          · exact h0 p hmem
          · rw [hmem]
            have hm : uid ∉ pin.voted_by := by
              simpa using hc
            constructor
            · show pin.votes + 1 = ((pin.voted_by ++ [uid]).length : ℤ)
              rw [List.length_append, List.length_singleton]
              push_cast
              omega
            · refine hnd.append (List.nodup_singleton uid) ?_
              intro a ha hb
              rw [List.mem_singleton] at hb
              exact hm (hb ▸ ha)

/-! Claim theorems. -/

/-- C1: starting from any store whose pins satisfy the vote invariant (in
particular the empty store), after any sequence of `create_pin` and
`vote_pin` operations by any users, every pin's `votes` field equals the
number of elements of its `voted_by` list and each user identifier occurs
at most once in `voted_by`. -/
theorem votes_match_voters_reachable (st st' : DB) (h0 : DBInv st)
    (h : Reaches st st') : DBInv st' := by
  induction h with
  | refl => exact h0
  | tail _ hstep ih =>
      cases hstep with
      | createPin pd fid ts => exact DBInv_create _ pd fid ts ih
      | votePin pid uid => exact DBInv_vote _ pid uid ih

/-- Witness for C1: create a pin in the empty store, then toggle one vote
on it; the resulting store satisfies the invariant. -/
theorem votes_match_voters_reachable_witness :
    DBInv (vote_pin_state (create_pin_state emptyDB pdA "pa" 0) "pa" "u1") := by
  have h0 : DBInv emptyDB := fun p hp => absurd hp (List.not_mem_nil p)
  have hchain : Reaches emptyDB
      (vote_pin_state (create_pin_state emptyDB pdA "pa" 0) "pa" "u1") :=
    Relation.ReflTransGen.tail
      (Relation.ReflTransGen.single (OpStep.createPin emptyDB pdA "pa" 0))
      (OpStep.votePin (create_pin_state emptyDB pdA "pa" 0) "pa" "u1")
  exact votes_match_voters_reachable emptyDB _ h0 hchain

/-- C3 counterexample: the only delete-pin operation of the program is the
`pin_deleted` live handler, and at a store holding pin `pa` it does not
remove the pin: the store after handling a `pin_deleted` payload naming
the pin is unchanged and still resolves the pin. -/
theorem pin_deleted_no_removal_counterexample :
    runEffects ⟨[], [pinA], []⟩ (pin_deleted ⟨some "r1", [("id", "pa")]⟩)
        = ⟨[], [pinA], []⟩
      ∧ findPin (runEffects ⟨[], [pinA], []⟩
          (pin_deleted ⟨some "r1", [("id", "pa")]⟩)) "pa" ≠ none := by
  constructor
  · rfl
  · decide

/-- C3 amended: for every store and every payload, the `pin_deleted`
handler leaves the persistent store unchanged (it removes nothing) and
broadcasts exactly one `pin_removed` event carrying the payload verbatim
to the room named in the payload's `room_id` field. -/
theorem pin_deleted_relay_spec (st : DB) (data : EventData) :
    runEffects st (pin_deleted data) = st
    ∧ broadcastsOf (pin_deleted data)
        = [⟨"pin_removed", .clientData data, data.room_id⟩] :=
  ⟨rfl, rfl⟩

/-- C4: each of the three live mutation-intent handlers (`pin_created`,
`pin_updated`, `pin_deleted`) leaves the persistent store completely
unchanged and re-broadcasts its payload verbatim (as `pin_added`,
`pin_modified`, `pin_removed` respectively) to the room named in the
payload's `room_id` field. -/
theorem relay_events_frame (st : DB) (data : EventData) :
    (runEffects st (pin_created data) = st
      ∧ broadcastsOf (pin_created data)
          = [⟨"pin_added", .clientData data, data.room_id⟩])
    ∧ (runEffects st (pin_updated data) = st
      ∧ broadcastsOf (pin_updated data)
          = [⟨"pin_modified", .clientData data, data.room_id⟩])
    ∧ (runEffects st (pin_deleted data) = st
      ∧ broadcastsOf (pin_deleted data)
          = [⟨"pin_removed", .clientData data, data.room_id⟩]) :=
  ⟨⟨rfl, rfl⟩, ⟨rfl, rfl⟩, ⟨rfl, rfl⟩⟩

/-- C5: `create_pin` builds a pin with zero votes, empty voter list and
coordinates `[longitude, latitude]`, performs the durable insert first and
then exactly one `pin_added` broadcast to the pin's room whose payload is
the very pin document that was persisted; running the trace appends the
pin to the store. -/
theorem create_pin_spec (pd : PinCreate) (fid : String) (ts : ℕ) :
    ∃ pin : Pin,
      create_pin pd fid ts =
        ([.insertPin pin, .emit ⟨"pin_added", .pinDoc pin, some pin.room_id⟩], pin)
      ∧ pin.votes = 0
      ∧ pin.voted_by = []
      ∧ pin.location.coordinates = [pd.longitude, pd.latitude]
      ∧ pin.room_id = pd.room_id
      ∧ ∀ st : DB, runEffects st (create_pin pd fid ts).1
          = { st with pins := st.pins ++ [pin] } :=
  ⟨(create_pin pd fid ts).2, rfl, rfl, rfl, rfl, rfl, fun _ => rfl⟩

/-- C8: `create_room` returns and persists a room whose members list is
exactly the creator, and its trace contains no broadcast; running the
trace appends the room to the store. -/
theorem create_room_spec (rd : RoomCreate) (fid : String) (ts : ℕ) :
    ∃ room : Room,
      create_room rd fid ts = ([.insertRoom room], room)
      ∧ room.members = [rd.created_by]
      ∧ broadcastsOf (create_room rd fid ts).1 = []
      ∧ ∀ st : DB, runEffects st (create_room rd fid ts).1
          = { st with rooms := st.rooms ++ [room] } :=
  ⟨(create_room rd fid ts).2, rfl, rfl, rfl, fun _ => rfl⟩

/-- C2: when a pin with identifier `pid` exists, two successive `vote_pin`
calls with the same `(pid, uid)` both succeed, and the pin afterwards has
the same vote count and the same voter membership (as a set) as before the
first call. -/
theorem vote_toggle_roundtrip (st : DB) (pid uid : String) (pin : Pin)
    (h : findPin st pid = some pin) :
    okb (vote_pin st pid uid) = true
    ∧ okb (vote_pin (vote_pin_state st pid uid) pid uid) = true
    ∧ ∃ p2, findPin (vote_pin_state (vote_pin_state st pid uid) pid uid) pid
          = some p2
        ∧ p2.votes = pin.votes
        ∧ p2.voted_by.toFinset = pin.voted_by.toFinset := by
  cases hc : pin.voted_by.contains uid with
  | true =>
      have hm : uid ∈ pin.voted_by := by
        simpa using hc
      have e1 : vote_pin_state st pid uid
          = applyEffect st (.updatePin pid (.pullVote uid)) :=
        vote_pin_state_pull st pid uid pin h hc
      have h1 : findPin (vote_pin_state st pid uid) pid
          = some (applyPinUpdate (.pullVote uid) pin) := by
        rw [e1, findPin_updatePin, h]
        rfl
      have hm1 : uid ∉ (applyPinUpdate (.pullVote uid) pin).voted_by := by
        intro hmem
        have hmem' : uid ∈ pin.voted_by.filter (fun v => v != uid) := hmem
        exact ((mem_filter_bne _ _ _).mp hmem').2 rfl
      have hc1 : (applyPinUpdate (.pullVote uid) pin).voted_by.contains uid
          = false := by
        simpa using hm1
      have e2 : vote_pin_state (vote_pin_state st pid uid) pid uid
          = applyEffect (vote_pin_state st pid uid)
              (.updatePin pid (.pushVote uid)) :=
        vote_pin_state_push (vote_pin_state st pid uid) pid uid _ h1 hc1
      have h2 : findPin (vote_pin_state (vote_pin_state st pid uid) pid uid) pid
          = some (applyPinUpdate (.pushVote uid)
              (applyPinUpdate (.pullVote uid) pin)) := by
        rw [e2, findPin_updatePin, h1]
        rfl
      refine ⟨?_, ?_, ?_⟩
      · rw [vote_pin_eq_pull st pid uid pin h hc]
        rfl
      · rw [vote_pin_eq_push (vote_pin_state st pid uid) pid uid _ h1 hc1]
        rfl
      · refine ⟨_, h2, ?_, ?_⟩
        · show pin.votes - 1 + 1 = pin.votes
          omega
        · show (pin.voted_by.filter (fun v => v != uid) ++ [uid]).toFinset
            = pin.voted_by.toFinset
          ext a
          simp only [List.toFinset_append, Finset.mem_union,
            List.mem_toFinset, List.mem_singleton, mem_filter_bne]
          constructor
          · rintro (⟨ha, _⟩ | rfl)
            · exact ha
            · exact hm
          · intro ha
            by_cases hau : a = uid
            · exact Or.inr hau
            · exact Or.inl ⟨ha, hau⟩
  | false =>
      have hm : uid ∉ pin.voted_by := by
        simpa using hc
      have e1 : vote_pin_state st pid uid
          = applyEffect st (.updatePin pid (.pushVote uid)) :=
        vote_pin_state_push st pid uid pin h hc
      have h1 : findPin (vote_pin_state st pid uid) pid
          = some (applyPinUpdate (.pushVote uid) pin) := by
        rw [e1, findPin_updatePin, h]
        rfl
      have hm1 : uid ∈ (applyPinUpdate (.pushVote uid) pin).voted_by := by
        show uid ∈ pin.voted_by ++ [uid]
        exact List.mem_append_right _ (List.mem_singleton_self uid)
      have hc1 : (applyPinUpdate (.pushVote uid) pin).voted_by.contains uid
          = true := by
        simpa using hm1
      have e2 : vote_pin_state (vote_pin_state st pid uid) pid uid
          = applyEffect (vote_pin_state st pid uid)
              (.updatePin pid (.pullVote uid)) :=
        vote_pin_state_pull (vote_pin_state st pid uid) pid uid _ h1 hc1
      have h2 : findPin (vote_pin_state (vote_pin_state st pid uid) pid uid) pid
          = some (applyPinUpdate (.pullVote uid)
              (applyPinUpdate (.pushVote uid) pin)) := by
        rw [e2, findPin_updatePin, h1]
        rfl
      have hfilter : (pin.voted_by ++ [uid]).filter (fun v => v != uid)
          = pin.voted_by := by
        rw [List.filter_append, filter_bne_of_not_mem pin.voted_by uid hm]
        simp
      refine ⟨?_, ?_, ?_⟩
      · rw [vote_pin_eq_push st pid uid pin h hc]
        rfl
      · rw [vote_pin_eq_pull (vote_pin_state st pid uid) pid uid _ h1 hc1]
        rfl
      · refine ⟨_, h2, ?_, ?_⟩
        · show pin.votes + 1 - 1 = pin.votes
          omega
        · show ((pin.voted_by ++ [uid]).filter (fun v => v != uid)).toFinset
            = pin.voted_by.toFinset
          rw [hfilter]

/-- Witness for C2: toggling `u1`'s vote twice on `pinV` (which `u1` has
already voted for) leaves its vote count at 1 and its voter set `{u1}`. -/
theorem vote_toggle_roundtrip_witness :
    okb (vote_pin dbV "pv" "u1") = true
    ∧ okb (vote_pin (vote_pin_state dbV "pv" "u1") "pv" "u1") = true
    ∧ ∃ p2, findPin (vote_pin_state (vote_pin_state dbV "pv" "u1") "pv" "u1") "pv"
          = some p2
        ∧ p2.votes = pinV.votes
        ∧ p2.voted_by.toFinset = pinV.voted_by.toFinset :=
  vote_toggle_roundtrip dbV "pv" "u1" pinV rfl

/-- C6: `get_optimal_location` answers 404 exactly when the room has no
pins, and otherwise performs no effect and returns the arithmetic mean of
the longitudes and the arithmetic mean of the latitudes of the pins of
the room, tagged as a centroid-type result. -/
theorem optimal_location_centroid (st : DB) (rid : String) :
    (find_pins_in_room st rid = [] →
      get_optimal_location st rid
        = .error (.httpError 404 "No pins found in room"))
    ∧ (find_pins_in_room st rid ≠ [] →
      get_optimal_location st rid = .ok ([],
        { optimal_location :=
            { longitude := (roomLongitudes st rid).sum
                / ((find_pins_in_room st rid).length : ℚ),
              latitude := (roomLatitudes st rid).sum
                / ((find_pins_in_room st rid).length : ℚ),
              type := "centroid" },
          algorithm := "centroid",
          description := "Geographic center of all pins" })) := by
  constructor
  · intro h
    simp [get_optimal_location, calculate_centroid, h]
  · intro h
    have hlen : 0 < (find_pins_in_room st rid).length :=
      List.length_pos.mpr h
    simp [get_optimal_location, calculate_centroid, hlen,
      roomLongitudes, roomLatitudes]

/-- Witness for C6: on the spec's example pins at (-74.0060, 40.7128) and
(-73.9851, 40.7589) the returned centroid is longitude -73.99555 and
latitude 40.73585. -/
theorem optimal_location_centroid_witness :
    get_optimal_location sampleDB "r1" = .ok ([],
      { optimal_location :=
          { longitude := -73.99555, latitude := 40.73585, type := "centroid" },
        algorithm := "centroid",
        description := "Geographic center of all pins" }) := by
  have h := (optimal_location_centroid sampleDB "r1").2 (by decide)
  have hlon : (roomLongitudes sampleDB "r1").sum
      / ((find_pins_in_room sampleDB "r1").length : ℚ) = -73.99555 := by
    rw [show roomLongitudes sampleDB "r1" = [-74.0060, -73.9851] from rfl,
      show find_pins_in_room sampleDB "r1" = [pinA, pinB] from rfl]
    norm_num
  have hlat : (roomLatitudes sampleDB "r1").sum
      / ((find_pins_in_room sampleDB "r1").length : ℚ) = 40.73585 := by
    rw [show roomLatitudes sampleDB "r1" = [40.7128, 40.7589] from rfl,
      show find_pins_in_room sampleDB "r1" = [pinA, pinB] from rfl]
    norm_num
  rw [hlon, hlat] at h
  exact h

/-- C7: `vote_pin` answers 404 "Pin not found" exactly when no pin with
the given identifier exists; every error it can return is that 404; and
on that failure the store is left unchanged (the raise precedes any write
or broadcast, so the failing call carries no effect). -/
theorem vote_pin_notFound_iff (st : DB) (pid uid : String) :
    (vote_pin st pid uid = .error (.httpError 404 "Pin not found")
      ↔ findPin st pid = none)
    ∧ (∀ e, vote_pin st pid uid = .error e → e = .httpError 404 "Pin not found")
    ∧ (findPin st pid = none → vote_pin_state st pid uid = st) := by
  cases hfind : findPin st pid with
  | none =>
      have herr : vote_pin st pid uid
          = .error (.httpError 404 "Pin not found") := by
        simp [vote_pin, hfind]
      refine ⟨⟨fun _ => rfl, fun _ => herr⟩, ?_, ?_⟩
      · intro e he
        rw [herr] at he
        exact (Except.error.inj he).symm
      · intro _
        exact vote_pin_state_of_none st pid uid hfind
  | some pin =>
      have hok : ∃ effs r, vote_pin st pid uid = .ok (effs, r) := by
        cases hc : pin.voted_by.contains uid with
        | true => exact ⟨_, _, vote_pin_eq_pull st pid uid pin hfind hc⟩
        | false => exact ⟨_, _, vote_pin_eq_push st pid uid pin hfind hc⟩
      obtain ⟨effs, r, hok⟩ := hok
      refine ⟨⟨?_, ?_⟩, ?_, ?_⟩
      · intro he
        rw [hok] at he
        cases he
      · intro hn
        exact absurd hn (by simp)
      · intro e he
        rw [hok] at he
        cases he
      · intro hn
        exact absurd hn (by simp)

/-- Witness for C7: voting on the empty store fails with the 404, and the
store is unchanged. -/
theorem vote_pin_notFound_iff_witness :
    vote_pin emptyDB "p" "u" = .error (.httpError 404 "Pin not found")
    ∧ vote_pin_state emptyDB "p" "u" = emptyDB :=
  ⟨(vote_pin_notFound_iff emptyDB "p" "u").1.mpr rfl,
   (vote_pin_notFound_iff emptyDB "p" "u").2.2 rfl⟩

/-- C9: the REST join answers 404 exactly when the room does not exist;
when the room exists the call always succeeds, and when the caller is
already a member its effect trace is empty, so the durable members list
is unchanged and in particular gains no duplicate entry. -/
theorem join_room_idempotent (st : DB) (rid uid : String) :
    (findRoom st rid = none →
      join_room_api st rid uid = .error (.httpError 404 "Room not found"))
    ∧ (∀ room, findRoom st rid = some room →
        okb (join_room_api st rid uid) = true
        ∧ (room.members.contains uid = true →
            join_room_api st rid uid = .ok ([], "Successfully joined room"))) := by
  constructor
  · intro h
    simp [join_room_api, h]
  · intro room h
    constructor
    · cases hc : room.members.contains uid with
      | true =>
          have hm : uid ∈ room.members := by
            simpa using hc
          simp [join_room_api, h, hm, okb]
      | false =>
          have hm : uid ∉ room.members := by
            simpa using hc
          simp [join_room_api, h, hm, okb]
    · intro hc
      have hm : uid ∈ room.members := by
        simpa using hc
      simp [join_room_api, h, hm]

/-- Witness for C9: joining room `r1` again as its sole member `u1`
returns success with an empty effect trace. -/
theorem join_room_idempotent_witness :
    join_room_api dbR "r1" "u1" = .ok ([], "Successfully joined room") :=
  (((join_room_idempotent dbR "r1" "u1").2 roomR rfl).2) rfl

/-- C10: when the room exists, the REST join emits no broadcast and every
effect it performs is the single members-push on that room; the pins and
users collections are untouched, and the rooms collection changes only in
the first room matching `rid`, whose `members` list gains `uid` exactly
when `uid` was not yet a member, all other fields unchanged. -/
theorem join_room_frame (st : DB) (rid uid : String) (room : Room)
    (h : findRoom st rid = some room) :
    ∃ effs, join_room_api st rid uid = .ok (effs, "Successfully joined room")
      ∧ broadcastsOf effs = []
      ∧ (∀ e ∈ effs, e = .pushMember rid uid)
      ∧ (runEffects st effs).pins = st.pins
      ∧ (runEffects st effs).users = st.users
      ∧ (runEffects st effs).rooms = updateFirst (fun r => r.id == rid)
          (fun r => { r with members :=
            (if r.members.contains uid then r.members else r.members ++ [uid]) })
          st.rooms := by
  have h' : st.rooms.find? (fun r => r.id == rid) = some room := h
  cases hc : room.members.contains uid with
  | true =>
      have hm : uid ∈ room.members := by
        simpa using hc
      refine ⟨[], ?_, rfl, ?_, rfl, rfl, ?_⟩
      · simp [join_room_api, h, hm]
      · intro e he
        cases he
      · show st.rooms = updateFirst _ _ st.rooms
        refine (updateFirst_eq_self _ _ st.rooms room h' ?_).symm
        simp [hm]
  | false =>
      have hm : uid ∉ room.members := by
        simpa using hc
      refine ⟨[.pushMember rid uid], ?_, rfl, ?_, rfl, rfl, ?_⟩
      · simp [join_room_api, h, hm]
      · intro e he
        simpa using he
      · show updateFirst (fun r => r.id == rid)
            (fun r => { r with members := r.members ++ [uid] }) st.rooms
          = updateFirst _ _ st.rooms
        refine updateFirst_congr _ _ _ st.rooms room h' ?_
        simp [hm]

/-- Witness for C10: a new user `u2` joining room `r1` only appends `u2`
to that room's member list. -/
theorem join_room_frame_witness :
    ∃ effs, join_room_api dbR "r1" "u2" = .ok (effs, "Successfully joined room")
      ∧ broadcastsOf effs = []
      ∧ (∀ e ∈ effs, e = .pushMember "r1" "u2")
      ∧ (runEffects dbR effs).pins = dbR.pins
      ∧ (runEffects dbR effs).users = dbR.users
      ∧ (runEffects dbR effs).rooms = updateFirst (fun r => r.id == "r1")
          (fun r => { r with members :=
            (if r.members.contains "u2" then r.members else r.members ++ ["u2"]) })
          dbR.rooms :=
  join_room_frame dbR "r1" "u2" roomR rfl

end TeamMap
